import Mathlib

/-!
# Verification of the ELF64 reader (`src/main.py`)

Shallow embedding of the repository's single source file.  The underlying
`mmap` object is modelled as a `List Nat` of bytes; Python integers are `Int`;
fallible operations return `Except Err _`.  Python's sequence-indexing and
slicing semantics (negative-index wrap-around, slice clamping) are modelled
explicitly by `pyIndex` and `pySlice`.
-/

/-- The error outcomes of the Python code, one constructor per distinct
`raise` site (plus the exceptions Python's runtime raises inside the used
library calls). -/
inductive Err where
  /-- `ValueError("required slice exceeds actual size")` in `MmapSlice.slice`. -/
  | outOfRange
  /-- `IndexError` raised by `mmap.__getitem__` with an out-of-range int index. -/
  | indexError
  /-- `RuntimeError("duplicate field name: ...")` in `StructReader.__init__`. -/
  | duplicateField
  /-- `ValueError("size of data ... does not match with FIELD_MAPPING definition")`. -/
  | schemaMismatch
  /-- `KeyError` from `self._fields[key]` in `StructReader.__getattr__`. -/
  | unknownField
  /-- `struct.error` from `struct.unpack` on a buffer of the wrong length. -/
  | structError
  /-- `AssertionError` from the `assert isinstance(..., int)` lines. -/
  | assertionFailed
  /-- `ValueError("invalid program index")` / `ValueError("invalid section index")`. -/
  | indexOutOfRange
  /-- `ValueError("invalid section name")`. -/
  | sectionNotFound
  /-- `UnicodeDecodeError` from `bytes.decode()`. -/
  | invalidEncoding
  /-- `RuntimeError("invalid ELF magic")`. -/
  | invalidMagic
  /-- `RuntimeError("only 64-bit ELF file is supported")`. -/
  | unsupportedWordSize
  /-- `RuntimeError("only little-endian ELF file is supported")`. -/
  | unsupportedEndianness
  /-- `RuntimeError("invalid ELF identification version")`. -/
  | unsupportedVersion
deriving DecidableEq, Repr

/-- Decidable equality for `Except`, needed so witnesses can use `decide`. -/
instance {ε α : Type} [DecidableEq ε] [DecidableEq α] : DecidableEq (Except ε α) := fun a b =>
  match a, b with
  | .error e, .error e' =>
    if h : e = e' then .isTrue (by rw [h]) else .isFalse (fun hh => by cases hh; exact h rfl)
  | .error _, .ok _ => .isFalse (fun hh => by cases hh)
  | .ok _, .error _ => .isFalse (fun hh => by cases hh)
  | .ok x, .ok y =>
    if h : x = y then .isTrue (by rw [h]) else .isFalse (fun hh => by cases hh; exact h rfl)

/-- Python integer indexing into a byte buffer (`mmap[i]`): a negative index is
taken from the end; an index outside the buffer raises `IndexError`. -/
def pyIndex (m : List Nat) (i : Int) : Except Err Nat :=
  let j : Int := if i < 0 then i + m.length else i
  if 0 ≤ j ∧ j < (m.length : Int) then .ok (m.getD j.toNat 0) else .error .indexError

/-- Python slicing of a byte buffer (`mmap[a:b]`, step 1): negative endpoints
are taken from the end, then both endpoints are clamped to `[0, len]`; an empty
slice results when the adjusted start is not below the adjusted stop. -/
def pySlice (m : List Nat) (a b : Int) : List Nat :=
  let n : Int := m.length
  let a' : Int := if a < 0 then max (a + n) 0 else min a n
  let b' : Int := if b < 0 then max (b + n) 0 else min b n
  if a' < b' then (m.take b'.toNat).drop a'.toNat else []

/-- `class MmapSlice`: a window `(mmap, offset, size)` over the byte source.
The constructor stores the three values unchecked. -/
structure MmapSlice where
  mmap : List Nat
  offset : Int
  size : Int
deriving DecidableEq, Repr

/-- `MmapSlice.__getitem__` with an `int` index:
`return self._mmap[self._offset + index]` — no check against the view's own
size. -/
def MmapSlice.getItemInt (s : MmapSlice) (index : Int) : Except Err Nat :=
  pyIndex s.mmap (s.offset + index)

/-- `MmapSlice.__getitem__` with a `slice` index (step is always `None` at the
call sites): missing start defaults to `0`, missing stop to `self._size`, and
the underlying buffer is sliced at `self._offset + start : self._offset + stop`. -/
def MmapSlice.getItemSlice (s : MmapSlice) (start stop : Option Int) : List Nat :=
  let st : Int := start.getD 0
  let sp : Int := stop.getD s.size
  pySlice s.mmap (s.offset + st) (s.offset + sp)

/-- `MmapSlice.slice(offset, size)`: raises `ValueError` when
`self._offset + offset + size > self._offset + self._size`, otherwise returns
`MmapSlice(self._mmap, self._offset + offset, size)`. -/
def MmapSlice.slice (s : MmapSlice) (offset size : Int) : Except Err MmapSlice :=
  if s.offset + offset + size > s.offset + s.size then .error .outOfRange
  else .ok ⟨s.mmap, s.offset + offset, size⟩

/-- The scanning loop of `MmapSlice.find`: `for index in range(begin, end)`,
returning the first index whose byte equals `ch`.  The fuel argument is the
number of remaining iterations (`end - index`); each probe is a raw
`self._mmap[self._offset + index]` access and so can raise `IndexError`. -/
def findLoop (m : List Nat) (o : Int) (ch : Nat) : Int → Nat → Except Err (Option Int)
  | _, 0 => .ok none
  | idx, fuel + 1 => do
    let b ← pyIndex m (o + idx)
    if b = ch then .ok (some idx) else findLoop m o ch (idx + 1) fuel

/-- `MmapSlice.find(ch, begin, end)`: returns `None` immediately when
`begin >= self._size`; replaces a missing or too-large `end` by `self._size`;
then scans `range(begin, end)` for the first matching byte. -/
def MmapSlice.find (s : MmapSlice) (ch : Nat) (begin_ : Int) (end_ : Option Int) :
    Except Err (Option Int) :=
  if begin_ ≥ s.size then .ok none
  else
    let e : Int := match end_ with
      | none => s.size
      | some e => if e ≥ s.size then s.size else e
    findLoop s.mmap s.offset ch begin_ (e - begin_).toNat

/-- A `FIELD_MAPPING` entry: `(field name, byte width, struct format or None)`. -/
abbrev FieldMapping := List (String × Nat × Option String)

/-- The value of one structured field: raw bytes or a decoded integer
(Python's `Union[bytes, int]`). -/
inductive FieldValue where
  | raw (bs : List Nat)
  | int (i : Int)
deriving DecidableEq, Repr

/-- `struct.calcsize` for the format strings the source uses. -/
def structCalcsize : String → Nat
  | "<b" => 1
  | "<h" => 2
  | "<l" => 4
  | "<q" => 8
  | _ => 0

/-- Little-endian accumulation of a byte list into a natural number. -/
def leNat : List Nat → Nat
  | [] => 0
  | b :: rest => b + 256 * leNat rest

/-- Two's-complement reading of `n` as a signed integer of `w` bytes. -/
def toSigned (w : Nat) (n : Nat) : Int :=
  if n < 2 ^ (8 * w - 1) then (n : Int) else (n : Int) - 2 ^ (8 * w)

/-- `struct.unpack(format, bytes)[0]` for the little-endian signed formats the
source uses: requires the buffer length to equal the format size exactly,
otherwise raises `struct.error`. -/
def structUnpack (format : String) (bs : List Nat) : Except Err Int :=
  if bs.length = structCalcsize format ∧ structCalcsize format ≠ 0 then
    .ok (toSigned (structCalcsize format) (leNat bs))
  else .error .structError

/-- `class StructReader` after a successful `__init__`: the view plus the
computed `self._fields` table `name ↦ (offset, size, format)` in insertion
order. -/
structure StructReader where
  data : MmapSlice
  fields : List (String × Nat × Nat × Option String)
deriving DecidableEq, Repr

/-- The `__init__` loop of `StructReader`: walks `FIELD_MAPPING`, raising
`RuntimeError` on a repeated name (`if name in self._fields`), recording
`(offset, size, format)` and advancing `offset += size`. -/
def buildFields : FieldMapping → List (String × Nat × Nat × Option String) → Nat →
    Except Err (List (String × Nat × Nat × Option String) × Nat)
  | [], acc, off => .ok (acc, off)
  | (name, size, format) :: rest, acc, off =>
    if acc.any (fun f => f.1 == name) then .error .duplicateField
    else buildFields rest (acc ++ [(name, off, size, format)]) (off + size)

/-- `StructReader.__init__(data)`: builds the field table, then raises
`ValueError` when the accumulated offset differs from `data.size`. -/
def StructReader.mk? (data : MmapSlice) (mapping : FieldMapping) : Except Err StructReader := do
  let (fields, total) ← buildFields mapping [] 0
  if (total : Int) ≠ data.size then .error .schemaMismatch
  else .ok ⟨data, fields⟩

/-- `StructReader.__getattr__(key)`: looks up `self._fields[key]` (a `KeyError`
when absent), slices `self._data[offset : offset + size]`, and either returns
the raw bytes or `struct.unpack`s them. -/
def StructReader.getattr (r : StructReader) (key : String) : Except Err FieldValue :=
  match r.fields.find? (fun f => f.1 == key) with
  | none => .error .unknownField
  | some (_, off, size, format) =>
    let bs := r.data.getItemSlice (some (off : Int)) (some ((off : Int) + size))
    match format with
    | none => .ok (.raw bs)
    | some f => do
      let i ← structUnpack f bs
      .ok (.int i)

/-- A field read followed by the source's `assert isinstance(x, int)`. -/
def StructReader.getattrInt (r : StructReader) (key : String) : Except Err Int := do
  match ← r.getattr key with
  | .int i => .ok i
  | .raw _ => .error .assertionFailed

/-- One step of Python's strict UTF-8 decoder (`bytes.decode()`): consumes the
leading character's bytes, rejecting stray continuation bytes, overlong
encodings, surrogates and code points above `0x10FFFF`. -/
def utf8Step : List Nat → Option (Char × List Nat)
  | [] => none
  | b :: rest =>
    if b < 0x80 then some (Char.ofNat b, rest)
    else if b < 0xC2 then none
    else if b < 0xE0 then
      match rest with
      | b1 :: rest' =>
        if 0x80 ≤ b1 ∧ b1 < 0xC0 then
          some (Char.ofNat ((b - 0xC0) * 64 + (b1 - 0x80)), rest')
        else none
      | [] => none
    else if b < 0xF0 then
      match rest with
      | b1 :: b2 :: rest' =>
        let cp := (b - 0xE0) * 4096 + (b1 - 0x80) * 64 + (b2 - 0x80)
        if (0x80 ≤ b1 ∧ b1 < 0xC0) ∧ (0x80 ≤ b2 ∧ b2 < 0xC0) ∧ 0x800 ≤ cp ∧
            ¬(0xD800 ≤ cp ∧ cp < 0xE000) then
          some (Char.ofNat cp, rest')
        else none
      | _ => none
    else if b < 0xF5 then
      match rest with
      | b1 :: b2 :: b3 :: rest' =>
        let cp := (b - 0xF0) * 262144 + (b1 - 0x80) * 4096 + (b2 - 0x80) * 64 + (b3 - 0x80)
        if (0x80 ≤ b1 ∧ b1 < 0xC0) ∧ (0x80 ≤ b2 ∧ b2 < 0xC0) ∧ (0x80 ≤ b3 ∧ b3 < 0xC0) ∧
            0x10000 ≤ cp ∧ cp ≤ 0x10FFFF then
          some (Char.ofNat cp, rest')
        else none
      | _ => none
    else none

/-- The decoding loop: each step consumes at least one byte, so the input
length is enough fuel; the fuel only makes the recursion structural. -/
def utf8DecodeLoop : Nat → List Nat → Option (List Char)
  | _, [] => some []
  | 0, _ :: _ => none
  | fuel + 1, b :: rest =>
    match utf8Step (b :: rest) with
    | none => none
    | some (c, rest') => (utf8DecodeLoop fuel rest').map (fun cs => c :: cs)

/-- `bytes.decode()`: strict UTF-8 decoding of a byte list into a string. -/
def utf8Decode (bs : List Nat) : Option String :=
  (utf8DecodeLoop bs.length bs).map String.mk

/-- `class StringTable`: wraps one `MmapSlice`. -/
structure StringTable where
  data : MmapSlice
deriving DecidableEq, Repr

/-- `StringTable.get(offset)`:
`null_index = self._data.find(0x00, offset, None)` followed by
`self._data[offset:null_index].decode()` (a `None` result of `find` makes the
slice run to the end of the view). -/
def StringTable.get (t : StringTable) (offset : Int) : Except Err String := do
  let nullIndex ← t.data.find 0x00 offset none
  match utf8Decode (t.data.getItemSlice (some offset) nullIndex) with
  | some s => .ok s
  | none => .error .invalidEncoding

/-- `ELFIdentification.FIELD_MAPPING`. -/
def ELFIdentification.FIELD_MAPPING : FieldMapping :=
  [("magic", 4, none),
   ("elf_class", 1, some "<b"),
   ("data_encoding", 1, some "<b"),
   ("header_version", 1, some "<b"),
   ("os_abi", 1, some "<b"),
   ("os_abi_version", 1, some "<b"),
   ("padding", 7, none)]

/-- `ELF64Header.FIELD_MAPPING = ELFIdentification.FIELD_MAPPING + [...]`. -/
def ELF64Header.FIELD_MAPPING : FieldMapping :=
  ELFIdentification.FIELD_MAPPING ++
  [("object_type", 2, some "<h"),
   ("architecture", 2, some "<h"),
   ("object_version", 4, some "<l"),
   ("entry_address", 8, some "<q"),
   ("program_header_offset", 8, some "<q"),
   ("section_header_offset", 8, some "<q"),
   ("flags", 4, none),
   ("elf_header_size", 2, some "<h"),
   ("program_header_size", 2, some "<h"),
   ("program_header_count", 2, some "<h"),
   ("section_header_size", 2, some "<h"),
   ("section_header_count", 2, some "<h"),
   ("section_header_index", 2, some "<h")]

/-- `ELF64ProgramHeader.FIELD_MAPPING`. -/
def ELF64ProgramHeader.FIELD_MAPPING : FieldMapping :=
  [("type", 4, some "<l"),
   ("flags", 4, some "<l"),
   ("offset", 8, some "<q"),
   ("virtual_address", 8, some "<q"),
   ("physical_address", 8, some "<q"),
   ("size_in_file", 8, some "<q"),
   ("size_in_memory", 8, some "<q"),
   ("alignment", 8, some "<q")]

/-- `ELF64SectionHeader.FIELD_MAPPING`. -/
def ELF64SectionHeader.FIELD_MAPPING : FieldMapping :=
  [("name", 4, some "<l"),
   ("type", 4, some "<l"),
   ("flags", 8, some "<q"),
   ("virtual_address", 8, some "<q"),
   ("offset", 8, some "<q"),
   ("size", 8, some "<q"),
   ("link", 4, none),
   ("info", 4, none),
   ("alignment", 8, some "<q"),
   ("entry_size", 8, some "<q")]

/-- `class ELF64Section`: resolved name, decoded header and content view. -/
structure ELF64Section where
  name : String
  header : StructReader
  data : MmapSlice
deriving DecidableEq, Repr

/-- `ELFFile.identification`: `ELFIdentification(MmapSlice(self._mmap, 0, 16))`.
The whole mapped file is the `file` byte list. -/
def ELFFile.identification (file : List Nat) : Except Err StructReader :=
  StructReader.mk? ⟨file, 0, 16⟩ ELFIdentification.FIELD_MAPPING

/-- `ELFFile.header`: `ELF64Header(MmapSlice(self._mmap, 0, 64))`. -/
def ELFFile.header (file : List Nat) : Except Err StructReader :=
  StructReader.mk? ⟨file, 0, 64⟩ ELF64Header.FIELD_MAPPING

/-- `ELFFile.get_program_header(index)`: reads size/count/offset from the file
header (each `self.header` re-derivation is pure, so a single binding is
equivalent), raises `ValueError` when `index >= header_count`, otherwise
decodes `MmapSlice(self._mmap, header_offset + index * header_size,
header_size)` as an `ELF64ProgramHeader`. -/
def ELFFile.get_program_header (file : List Nat) (index : Int) : Except Err StructReader := do
  let hdr ← ELFFile.header file
  let header_size ← hdr.getattrInt "program_header_size"
  let header_count ← hdr.getattrInt "program_header_count"
  let header_offset ← hdr.getattrInt "program_header_offset"
  if index ≥ header_count then .error .indexOutOfRange
  else
    StructReader.mk? ⟨file, header_offset + index * header_size, header_size⟩
      ELF64ProgramHeader.FIELD_MAPPING

/-- `ELFFile.get_section_header(index)`: symmetric to `get_program_header`
over the section-header table. -/
def ELFFile.get_section_header (file : List Nat) (index : Int) : Except Err StructReader := do
  let hdr ← ELFFile.header file
  let header_size ← hdr.getattrInt "section_header_size"
  let header_count ← hdr.getattrInt "section_header_count"
  let header_offset ← hdr.getattrInt "section_header_offset"
  if index ≥ header_count then .error .indexOutOfRange
  else
    StructReader.mk? ⟨file, header_offset + index * header_size, header_size⟩
      ELF64SectionHeader.FIELD_MAPPING

/-- Decoding of one section's name during `get_section`: decode the header at
`index`, read its `name` field, and look it up in the string table. -/
def resolveName (file : List Nat) (strtab : StringTable) (index : Int) : Except Err String := do
  let sh ← ELFFile.get_section_header file index
  let nameOffset ← sh.getattrInt "name"
  strtab.get nameOffset

/-- The `for section_index in range(section_count)` loop of `get_section` with
its `break` / `else: raise ValueError("invalid section name")`: the fuel is the
number of remaining iterations. -/
def sectionScan (file : List Nat) (strtab : StringTable) (want : String) :
    Nat → Int → Except Err (String × StructReader)
  | 0, _ => .error .sectionNotFound
  | fuel + 1, i => do
    let sh ← ELFFile.get_section_header file i
    let nameOffset ← sh.getattrInt "name"
    let nm ← strtab.get nameOffset
    if nm = want then .ok (nm, sh) else sectionScan file strtab want fuel (i + 1)

/-- The `if isinstance(index_or_name, int) ... else ...` dispatch of
`get_section`: by numeric index it decodes that header and resolves its name
through the string table; by name it runs the linear scan over
`range(section_count)`. -/
def ELFFile.get_section_resolve (file : List Nat) (hdr : StructReader) (strtab : StringTable) :
    Int ⊕ String → Except Err (String × StructReader)
  | .inl sectionIndex => do
    let sh ← ELFFile.get_section_header file sectionIndex
    let nameOffset ← sh.getattrInt "name"
    let nm ← strtab.get nameOffset
    pure (nm, sh)
  | .inr want => do
    let sectionCount ← hdr.getattrInt "section_header_count"
    sectionScan file strtab want sectionCount.toNat 0

/-- `ELFFile.get_section(index_or_name)`: builds the string table from the
section named by the header's `section_header_index`, then resolves either by
numeric index (decoding that header and its name) or by the linear name scan,
and finally pairs the header with the `[offset, offset+size)` content view. -/
def ELFFile.get_section (file : List Nat) (indexOrName : Int ⊕ String) :
    Except Err ELF64Section := do
  let hdr ← ELFFile.header file
  let strtabIndex ← hdr.getattrInt "section_header_index"
  let strtabHeader ← ELFFile.get_section_header file strtabIndex
  let strtabOffset ← strtabHeader.getattrInt "offset"
  let strtabSize ← strtabHeader.getattrInt "size"
  let strtab : StringTable := ⟨⟨file, strtabOffset, strtabSize⟩⟩
  let (sectionName, sectionHeader) ← ELFFile.get_section_resolve file hdr strtab indexOrName
  let sectionOffset ← sectionHeader.getattrInt "offset"
  let sectionSize ← sectionHeader.getattrInt "size"
  pure ⟨sectionName, sectionHeader, ⟨file, sectionOffset, sectionSize⟩⟩

/-- The magic bytes `b"\x7fELF"`. -/
def elfMagic : List Nat := [0x7F, 0x45, 0x4C, 0x46]

/-- The source `main(file_path)` after the file is mapped: the four identification
checks, in source order, each raising its own `RuntimeError`. -/
def mainFn (file : List Nat) : Except Err Unit := do
  let ident ← ELFFile.identification file
  let magic ← ident.getattr "magic"
  if magic ≠ .raw elfMagic then .error .invalidMagic
  else do
    let elfClass ← ident.getattr "elf_class"
    if elfClass ≠ .int 2 then .error .unsupportedWordSize
    else do
      let dataEncoding ← ident.getattr "data_encoding"
      if dataEncoding ≠ .int 1 then .error .unsupportedEndianness
      else do
        let headerVersion ← ident.getattr "header_version"
        if headerVersion ≠ .int 1 then .error .unsupportedVersion
        else .ok ()

/-! ## Concrete inputs used by witnesses and counterexamples -/

/-- The field table `__init__` computes for a duplicate-free mapping starting
at byte offset `off`. -/
def fieldsOf : FieldMapping → Nat → List (String × Nat × Nat × Option String)
  | [], _ => []
  | (name, size, format) :: rest, off => (name, off, size, format) :: fieldsOf rest (off + size)

/-- The sum of the declared field widths of a mapping. -/
def widthSum (m : FieldMapping) : Nat := (m.map (fun f => f.2.1)).sum

/-- A 64-byte file whose header decodes to: program-header entry size 0,
count 1, offset 0; section-header entry size 0, count 1, offset 0;
string-table index 0. -/
def file64 : List Nat := List.replicate 56 0 ++ [1, 0, 0, 0, 1, 0, 0, 0]

/-- A 64-byte file whose program-header count and section-header count fields
hold `0xFFFF`, which the signed 2-byte decode reads as `-1`. -/
def fileNeg : List Nat := List.replicate 56 0 ++ [255, 255, 0, 0, 255, 255, 0, 0]

/-- The string-table bytes of the spec example, `"\0.text\0.data\0"`. -/
def strtabBytes : List Nat :=
  [0, 0x2E, 0x74, 0x65, 0x78, 0x74, 0, 0x2E, 0x64, 0x61, 0x74, 0x61, 0]

/-- A 205-byte synthetic ELF image: section-header table of two 64-byte
entries at offset 64 (entry 0 is the string table, name offset 0 = `""`;
entry 1 has name offset 1 = `".text"`), string-table content at offset 192. -/
def fileC3 : List Nat :=
  List.replicate 40 0 ++ [64, 0, 0, 0, 0, 0, 0, 0] ++ List.replicate 10 0 ++
    [64, 0, 2, 0, 0, 0] ++
  (List.replicate 24 0 ++ [192, 0, 0, 0, 0, 0, 0, 0] ++ [13, 0, 0, 0, 0, 0, 0, 0] ++
    List.replicate 24 0) ++
  ([1, 0, 0, 0] ++ List.replicate 20 0 ++ [192, 0, 0, 0, 0, 0, 0, 0] ++
    [13, 0, 0, 0, 0, 0, 0, 0] ++ List.replicate 24 0) ++
  strtabBytes

/-! ## Helper lemmas -/

@[simp] theorem exceptBind_ok {ε α β : Type} (a : α) (f : α → Except ε β) :
    (Except.ok a >>= f : Except ε β) = f a := rfl

@[simp] theorem exceptBind_error {ε α β : Type} (e : ε) (f : α → Except ε β) :
    (Except.error e >>= f : Except ε β) = Except.error e := rfl

@[simp] theorem exceptPure {ε α : Type} (a : α) :
    (pure a : Except ε α) = Except.ok a := rfl

@[simp] theorem widthSum_nil : widthSum [] = 0 := rfl

@[simp] theorem widthSum_cons (name : String) (size : Nat) (format : Option String)
    (rest : FieldMapping) :
    widthSum ((name, size, format) :: rest) = size + widthSum rest := by
  simp [widthSum]

theorem buildFields_ok :
    ∀ (m : FieldMapping) (acc : List (String × Nat × Nat × Option String)) (off : Nat),
      ((acc.map (fun f => f.1)) ++ m.map (fun f => f.1)).Nodup →
      buildFields m acc off = .ok (acc ++ fieldsOf m off, off + widthSum m)
  | [], acc, off, _ => by simp [buildFields, fieldsOf]
  | (name, size, format) :: rest, acc, off, h => by
    have h' : ((acc.map (fun f => f.1)) ++ name :: rest.map (fun f => f.1)).Nodup := by
      simpa using h
    have hmem : name ∉ acc.map (fun f => f.1) := by
      have hdisj := (List.nodup_append.mp h').2.2
      intro hn
      exact hdisj hn (by simp)
    have hany : ¬ (acc.any (fun f => f.1 == name) = true) := by
      intro hc
      obtain ⟨x, hx, hbeq⟩ := List.any_eq_true.mp hc
      rw [beq_iff_eq] at hbeq
      exact hmem (hbeq ▸ List.mem_map_of_mem (fun f => f.1) hx)
    have hrec := buildFields_ok rest (acc ++ [(name, off, size, format)]) (off + size) (by
      simpa using h')
    calc buildFields ((name, size, format) :: rest) acc off
        = buildFields rest (acc ++ [(name, off, size, format)]) (off + size) := by
          simp [buildFields, hany]
      _ = .ok (acc ++ [(name, off, size, format)] ++ fieldsOf rest (off + size),
          (off + size) + widthSum rest) := hrec
      _ = .ok (acc ++ fieldsOf ((name, size, format) :: rest) off,
          off + widthSum ((name, size, format) :: rest)) := by
          simp [fieldsOf]
          omega

theorem buildFields_dup :
    ∀ (m : FieldMapping) (acc : List (String × Nat × Nat × Option String)) (off : Nat),
      (acc.map (fun f => f.1)).Nodup →
      ¬ ((acc.map (fun f => f.1)) ++ m.map (fun f => f.1)).Nodup →
      buildFields m acc off = .error .duplicateField
  | [], acc, off, hacc, h => by simp at h; exact absurd hacc h
  | (name, size, format) :: rest, acc, off, hacc, h => by
    have h' : ¬ ((acc.map (fun f => f.1)) ++ name :: rest.map (fun f => f.1)).Nodup := by
      simpa using h
    by_cases hmem : name ∈ acc.map (fun f => f.1)
    · have hany : acc.any (fun f => f.1 == name) = true := by
        obtain ⟨f, hf, hfe⟩ := List.mem_map.mp hmem
        exact List.any_eq_true.mpr ⟨f, hf, by rw [beq_iff_eq]; exact hfe⟩
      simp [buildFields, hany]
    · have hany : ¬ (acc.any (fun f => f.1 == name) = true) := by
        intro hc
        obtain ⟨x, hx, hbeq⟩ := List.any_eq_true.mp hc
        rw [beq_iff_eq] at hbeq
        exact hmem (hbeq ▸ List.mem_map_of_mem (fun f => f.1) hx)
      have hacc' : ((acc ++ [(name, off, size, format)]).map (fun f => f.1)).Nodup := by
        simp only [List.map_append, List.map_cons, List.map_nil]
        rw [List.nodup_append]
        refine ⟨hacc, List.nodup_singleton _, ?_⟩
        intro a ha hb
        simp only [List.mem_singleton] at hb
        exact hmem (hb ▸ ha)
      have hnext : ¬ (((acc ++ [(name, off, size, format)]).map (fun f => f.1)) ++
          rest.map (fun f => f.1)).Nodup := by
        intro hc
        exact h' (by simpa using hc)
      simp only [buildFields, if_neg hany]
      exact buildFields_dup rest _ (off + size) hacc' hnext

theorem buildFields_error :
    ∀ (m : FieldMapping) (acc : List (String × Nat × Nat × Option String)) (off : Nat) (e : Err),
      buildFields m acc off = .error e → e = .duplicateField
  | [], _, _, _, h => by simp [buildFields] at h
  | (name, size, format) :: rest, acc, off, e, h => by
    by_cases hany : acc.any (fun f => f.1 == name) = true
    · simp [buildFields, hany] at h
      exact h.symm
    · simp only [buildFields, if_neg hany] at h
      exact buildFields_error rest _ (off + size) e h

theorem StructReader.mk?_eq_of_nodup (d : MmapSlice) (m : FieldMapping)
    (h : (m.map (fun f => f.1)).Nodup) :
    StructReader.mk? d m =
      if (widthSum m : Int) ≠ d.size then .error .schemaMismatch
      else .ok ⟨d, fieldsOf m 0⟩ := by
  have hb := buildFields_ok m [] 0 (by simpa using h)
  simp [StructReader.mk?, hb]

theorem StructReader.mk?_dup (d : MmapSlice) (m : FieldMapping)
    (h : ¬ (m.map (fun f => f.1)).Nodup) :
    StructReader.mk? d m = .error .duplicateField := by
  have hb := buildFields_dup m [] 0 (by simp) (by simpa using h)
  simp [StructReader.mk?, hb]

theorem StructReader.mk?_error_cases (d : MmapSlice) (m : FieldMapping) (e : Err)
    (h : StructReader.mk? d m = .error e) :
    e = .duplicateField ∨ e = .schemaMismatch := by
  unfold StructReader.mk? at h
  cases hb : buildFields m [] 0 with
  | error e' =>
    rw [hb] at h
    simp at h
    exact Or.inl (h ▸ buildFields_error m [] 0 e' hb)
  | ok p =>
    obtain ⟨fs, total⟩ := p
    rw [hb] at h
    simp only [exceptBind_ok] at h
    by_cases hsz : (total : Int) = d.size
    · rw [if_neg (by simpa using hsz)] at h
      simp at h
    · rw [if_pos hsz] at h
      simp at h
      exact Or.inr h.symm

theorem programHeader_nodup :
    (ELF64ProgramHeader.FIELD_MAPPING.map (fun f => f.1)).Nodup := by decide

theorem sectionHeader_nodup :
    (ELF64SectionHeader.FIELD_MAPPING.map (fun f => f.1)).Nodup := by decide

theorem programHeader_widthSum : widthSum ELF64ProgramHeader.FIELD_MAPPING = 56 := by decide

theorem sectionHeader_widthSum : widthSum ELF64SectionHeader.FIELD_MAPPING = 64 := by decide

/-- `get_program_header` in terms of the decoded header fields. -/
theorem ELFFile.gph_eq (file : List Nat) (index : Int) {hdr : StructReader} {psz pcnt poff : Int}
    (hh : ELFFile.header file = .ok hdr)
    (h1 : hdr.getattrInt "program_header_size" = .ok psz)
    (h2 : hdr.getattrInt "program_header_count" = .ok pcnt)
    (h3 : hdr.getattrInt "program_header_offset" = .ok poff) :
    ELFFile.get_program_header file index =
      if index ≥ pcnt then .error .indexOutOfRange
      else StructReader.mk? ⟨file, poff + index * psz, psz⟩ ELF64ProgramHeader.FIELD_MAPPING := by
  simp [ELFFile.get_program_header, hh, h1, h2, h3]

/-- `get_section_header` in terms of the decoded header fields. -/
theorem ELFFile.gsh_eq (file : List Nat) (index : Int) {hdr : StructReader} {ssz scnt soff : Int}
    (hh : ELFFile.header file = .ok hdr)
    (h1 : hdr.getattrInt "section_header_size" = .ok ssz)
    (h2 : hdr.getattrInt "section_header_count" = .ok scnt)
    (h3 : hdr.getattrInt "section_header_offset" = .ok soff) :
    ELFFile.get_section_header file index =
      if index ≥ scnt then .error .indexOutOfRange
      else StructReader.mk? ⟨file, soff + index * ssz, ssz⟩ ELF64SectionHeader.FIELD_MAPPING := by
  simp [ELFFile.get_section_header, hh, h1, h2, h3]

/-- A `StructReader` construction never reports an index error. -/
theorem StructReader.mk?_ne_ioor (d : MmapSlice) (m : FieldMapping) :
    StructReader.mk? d m ≠ .error .indexOutOfRange := by
  intro h
  rcases StructReader.mk?_error_cases d m _ h with h' | h' <;> cases h'

theorem findLoop_none (m : List Nat) (o : Int) (ch : Nat) :
    ∀ (fuel : Nat) (start : Int),
      (∀ k : Nat, k < fuel →
        (0 ≤ o + start + k ∧ o + start + k < (m.length : Int)) ∧
        m.getD (o + start + k).toNat 0 ≠ ch) →
      findLoop m o ch start fuel = .ok none := by
  intro fuel
  induction fuel with
  | zero => intro start _; rfl
  | succ n ih =>
    intro start h
    have h0 := h 0 (Nat.succ_pos n)
    simp only [Nat.cast_zero, add_zero] at h0
    have hidx : pyIndex m (o + start) = .ok (m.getD (o + start).toNat 0) := by
      unfold pyIndex
      rw [if_neg (show ¬(o + start < 0) by omega)]
      rw [if_pos (show (0 : Int) ≤ o + start ∧ o + start < (m.length : Int) from
        ⟨by omega, by omega⟩)]
    have hne : m.getD (o + start).toNat 0 ≠ ch := h0.2
    have hshift : ∀ k : Nat, k < n →
        (0 ≤ o + (start + 1) + k ∧ o + (start + 1) + k < (m.length : Int)) ∧
        m.getD (o + (start + 1) + k).toNat 0 ≠ ch := by
      intro k hk
      have hh := h (k + 1) (by omega)
      have harg : o + start + ((k + 1 : Nat) : Int) = o + (start + 1) + k := by
        push_cast
        ring
      rw [harg] at hh
      exact hh
    show (do
      let b ← pyIndex m (o + start)
      if b = ch then Except.ok (some start) else findLoop m o ch (start + 1) n) = .ok none
    rw [hidx]
    rw [exceptBind_ok]
    rw [if_neg hne]
    exact ih (start + 1) hshift

/-- `find(ch, begin, None)` returns `None` when no byte at position `begin` or
later in an in-bounds view equals `ch`. -/
theorem MmapSlice.find_none (s : MmapSlice) (ch : Nat) (begin_ : Int)
    (hoff : 0 ≤ s.offset) (hsz : s.offset + s.size ≤ (s.mmap.length : Int))
    (hb : 0 ≤ begin_) (hlt : begin_ < s.size)
    (hz : ∀ k : Nat, k < (s.size - begin_).toNat →
      s.mmap.getD ((s.offset + begin_).toNat + k) 0 ≠ ch) :
    s.find ch begin_ none = .ok none := by
  unfold MmapSlice.find
  rw [if_neg (show ¬(begin_ ≥ s.size) by omega)]
  show findLoop s.mmap s.offset ch begin_ (s.size - begin_).toNat = .ok none
  apply findLoop_none
  intro k hk
  have hk' : (k : Int) < s.size - begin_ := by omega
  refine ⟨⟨by omega, by omega⟩, ?_⟩
  have harg : (s.offset + (begin_ + (k : Int))).toNat = (s.offset + begin_).toNat + k := by
    omega
  rw [show s.offset + begin_ + (k : Int) = s.offset + (begin_ + (k : Int)) by ring, harg]
  exact hz k hk

theorem pySlice_eq (m : List Nat) (a b : Int) (ha : 0 ≤ a) (hab : a ≤ b)
    (hb : b ≤ (m.length : Int)) :
    pySlice m a b = (m.take b.toNat).drop a.toNat := by
  simp only [pySlice]
  rw [if_neg (show ¬(a < 0) by omega), if_neg (show ¬(b < 0) by omega)]
  rw [min_eq_left (show a ≤ ((m.length : Nat) : Int) by omega), min_eq_left hb]
  by_cases hlt : a < b
  · rw [if_pos hlt]
  · rw [if_neg hlt]
    have hlen : (m.take b.toNat).length ≤ a.toNat := by
      rw [List.length_take]
      omega
    exact (List.drop_eq_nil_of_le hlen).symm

theorem pySlice_empty (m : List Nat) (a b : Int) (hb : 0 ≤ b) (hba : b ≤ a) :
    pySlice m a b = [] := by
  simp only [pySlice]
  rw [if_neg (show ¬(a < 0) by omega), if_neg (show ¬(b < 0) by omega)]
  rw [if_neg (show ¬(min a ((m.length : Nat) : Int) < min b ((m.length : Nat) : Int)) by
    simp only [min_def]
    split_ifs <;> omega)]

/-! ## Claim theorems -/

/-- C6: for every ByteView of length `L` and every offset/size pair,
`slice(offset, size)` fails with OutOfRange when `offset + size > L`, and when
`offset + size = L` it succeeds and returns a view of exactly the requested
length restricted to `[offset, offset + size)` relative to the current view's
origin. -/
theorem C6_slice_bounds (s : MmapSlice) (offset size : Int) :
    (offset + size > s.size → s.slice offset size = .error .outOfRange) ∧
    (offset + size = s.size →
      s.slice offset size = .ok ⟨s.mmap, s.offset + offset, size⟩) := by
  constructor
  · intro h
    unfold MmapSlice.slice
    rw [if_pos (by omega)]
  · intro h
    unfold MmapSlice.slice
    rw [if_neg (by omega)]

/-- Witness for C6 at a concrete view: over-long slices fail, an exact-length
slice succeeds with the requested window. -/
theorem C6_witness :
    (MmapSlice.slice ⟨[0, 0, 0], 0, 3⟩ 1 3 = .error .outOfRange) ∧
    (MmapSlice.slice ⟨[0, 0, 0], 0, 3⟩ 1 2 = .ok ⟨[0, 0, 0], 0 + 1, 2⟩) :=
  ⟨(C6_slice_bounds ⟨[0, 0, 0], 0, 3⟩ 1 3).1 (by decide),
   (C6_slice_bounds ⟨[0, 0, 0], 0, 3⟩ 1 2).2 (by decide)⟩

/-- C2 counterexample: a view of length 1 over the 3-byte source `[10, 20, 30]`
returns the out-of-view byte `20` for index `1 ≥ length`, instead of failing
with an OutOfRange error. -/
theorem C2_counterexample :
    MmapSlice.getItemInt ⟨[10, 20, 30], 0, 1⟩ 1 = .ok 20 := rfl

/-- C2 as amended: indexed byte access performs no check against the view's
own length; it reads the underlying source at absolute position
`offset + index`, succeeding (possibly with a byte outside the view) whenever
that position is inside the source, and failing with the source's IndexError
only when it is not. -/
theorem C2_no_view_bounds_check (s : MmapSlice) (index : Int)
    (h0 : 0 ≤ s.offset + index) :
    (s.offset + index < (s.mmap.length : Int) →
      s.getItemInt index = .ok (s.mmap.getD (s.offset + index).toNat 0)) ∧
    ((s.mmap.length : Int) ≤ s.offset + index →
      s.getItemInt index = .error .indexError) := by
  constructor
  · intro hlt
    unfold MmapSlice.getItemInt pyIndex
    rw [if_neg (show ¬(s.offset + index < 0) by omega)]
    rw [if_pos (show (0 : Int) ≤ s.offset + index ∧
      s.offset + index < (s.mmap.length : Int) from ⟨h0, hlt⟩)]
  · intro hge
    unfold MmapSlice.getItemInt pyIndex
    rw [if_neg (show ¬(s.offset + index < 0) by omega)]
    rw [if_neg (by omega)]

/-- Witness for C2's amended statement at the counterexample input. -/
theorem C2_witness :
    MmapSlice.getItemInt ⟨[10, 20, 30], 0, 1⟩ 1 =
      .ok (([10, 20, 30] : List Nat).getD ((0 : Int) + 1).toNat 0) :=
  (C2_no_view_bounds_check ⟨[10, 20, 30], 0, 1⟩ 1 (by decide)).1 (by decide)

/-- C1 counterexample: a string table of size 2 over `[65, 66]` returns the
empty string for offset `2 ≥ size` instead of failing with an OutOfRange
error. -/
theorem C1_counterexample :
    StringTable.get ⟨⟨[65, 66], 0, 2⟩⟩ 2 = .ok "" := rfl

/-- C1 as amended: for a view with nonnegative offset and size, `get(offset)`
with `offset ≥ size` does not fail; the null scan returns "not found"
immediately and the slice from `offset` to the view's end is empty, so the
empty string is returned. -/
theorem C1_get_past_end (t : StringTable) (offset : Int)
    (hoff : 0 ≤ t.data.offset) (hsz : 0 ≤ t.data.size)
    (hge : t.data.size ≤ offset) :
    t.get offset = .ok "" := by
  have hf : t.data.find 0x00 offset none = .ok none := by
    unfold MmapSlice.find
    rw [if_pos (by omega)]
  have hs : t.data.getItemSlice (some offset) none = [] := by
    show pySlice t.data.mmap (t.data.offset + offset) (t.data.offset + t.data.size) = []
    exact pySlice_empty _ _ _ (by omega) (by omega)
  simp only [StringTable.get, hf, exceptBind_ok, hs]
  rfl

/-- Witness for C1's amended statement. -/
theorem C1_witness : StringTable.get ⟨⟨[65, 66], 0, 2⟩⟩ 3 = .ok "" :=
  C1_get_past_end ⟨⟨[65, 66], 0, 2⟩⟩ 3 (by decide) (by decide) (by decide)

/-- C7 counterexample: a schema repeating the name `"a"` whose widths sum to 2
applied to a view of size 3 fails with DuplicateField even though the width
sum differs from the view size, so "fails with SchemaMismatch exactly when the
sum differs" is false as stated. -/
theorem C7_counterexample :
    StructReader.mk? ⟨[0, 0, 0], 0, 3⟩ [("a", 1, none), ("a", 1, none)] =
      .error .duplicateField ∧
    (widthSum [("a", 1, none), ("a", 1, none)] : Int) ≠
      (MmapSlice.mk [0, 0, 0] 0 3).size := by
  constructor
  · rfl
  · decide

/-- C7 as amended: construction fails with DuplicateField whenever two fields
share a name (that check runs first and takes precedence), and for schemas
with pairwise-distinct field names it fails with SchemaMismatch exactly when
the sum of the declared widths differs from the view's length. -/
theorem C7_construction_errors (d : MmapSlice) (m : FieldMapping) :
    (¬ (m.map (fun f => f.1)).Nodup → StructReader.mk? d m = .error .duplicateField) ∧
    ((m.map (fun f => f.1)).Nodup →
      (StructReader.mk? d m = .error .schemaMismatch ↔ (widthSum m : Int) ≠ d.size)) := by
  constructor
  · exact StructReader.mk?_dup d m
  · intro h
    rw [StructReader.mk?_eq_of_nodup d m h]
    by_cases hc : (widthSum m : Int) ≠ d.size
    · simp [hc]
    · simp [hc]

/-- Witness for C7's amended statement: a duplicated schema fails with
DuplicateField; a duplicate-free schema fails with SchemaMismatch exactly on a
width-sum mismatch. -/
theorem C7_witness :
    (StructReader.mk? ⟨[0, 0], 0, 2⟩ [("a", 1, none), ("a", 1, none)] =
      .error .duplicateField) ∧
    (StructReader.mk? ⟨[0, 0, 0], 0, 3⟩ [("a", 1, none), ("b", 1, none)] =
        .error .schemaMismatch ↔
      (widthSum [("a", 1, none), ("b", 1, none)] : Int) ≠
        (MmapSlice.mk [0, 0, 0] 0 3).size) :=
  ⟨(C7_construction_errors ⟨[0, 0], 0, 2⟩ [("a", 1, none), ("a", 1, none)]).1 (by decide),
   (C7_construction_errors ⟨[0, 0, 0], 0, 3⟩ [("a", 1, none), ("b", 1, none)]).2 (by decide)⟩

/-- C4: for every index `i`, resolving a program header or section header
fails with IndexOutOfRange exactly when `i ≥` the corresponding table's entry
count, and an in-range entry is decoded from the view at absolute offset
`table_offset + i * entry_size` (of length `entry_size`) of the file. -/
theorem C4_index_resolution (file : List Nat) (index : Int) {hdr : StructReader}
    {psz pcnt poff ssz scnt soff : Int}
    (hh : ELFFile.header file = .ok hdr)
    (hp1 : hdr.getattrInt "program_header_size" = .ok psz)
    (hp2 : hdr.getattrInt "program_header_count" = .ok pcnt)
    (hp3 : hdr.getattrInt "program_header_offset" = .ok poff)
    (hs1 : hdr.getattrInt "section_header_size" = .ok ssz)
    (hs2 : hdr.getattrInt "section_header_count" = .ok scnt)
    (hs3 : hdr.getattrInt "section_header_offset" = .ok soff) :
    ((ELFFile.get_program_header file index = .error .indexOutOfRange ↔ index ≥ pcnt) ∧
      (index < pcnt → ELFFile.get_program_header file index =
        StructReader.mk? ⟨file, poff + index * psz, psz⟩ ELF64ProgramHeader.FIELD_MAPPING)) ∧
    ((ELFFile.get_section_header file index = .error .indexOutOfRange ↔ index ≥ scnt) ∧
      (index < scnt → ELFFile.get_section_header file index =
        StructReader.mk? ⟨file, soff + index * ssz, ssz⟩ ELF64SectionHeader.FIELD_MAPPING)) := by
  have hP := ELFFile.gph_eq file index hh hp1 hp2 hp3
  have hS := ELFFile.gsh_eq file index hh hs1 hs2 hs3
  constructor
  · constructor
    · constructor
      · intro h
        by_contra hge
        rw [hP, if_neg hge] at h
        exact StructReader.mk?_ne_ioor _ _ h
      · intro hge
        rw [hP, if_pos hge]
    · intro hlt
      rw [hP, if_neg (by omega)]
  · constructor
    · constructor
      · intro h
        by_contra hge
        rw [hS, if_neg hge] at h
        exact StructReader.mk?_ne_ioor _ _ h
      · intro hge
        rw [hS, if_pos hge]
    · intro hlt
      rw [hS, if_neg (by omega)]

/-- Witness for C4 on `file64` (both entry counts decode to 1) at index 0. -/
theorem C4_witness :
    ((ELFFile.get_program_header file64 0 = .error .indexOutOfRange ↔ (0 : Int) ≥ 1) ∧
      ((0 : Int) < 1 → ELFFile.get_program_header file64 0 =
        StructReader.mk? ⟨file64, 0 + 0 * 0, 0⟩ ELF64ProgramHeader.FIELD_MAPPING)) ∧
    ((ELFFile.get_section_header file64 0 = .error .indexOutOfRange ↔ (0 : Int) ≥ 1) ∧
      ((0 : Int) < 1 → ELFFile.get_section_header file64 0 =
        StructReader.mk? ⟨file64, 0 + 0 * 0, 0⟩ ELF64SectionHeader.FIELD_MAPPING)) :=
  C4_index_resolution file64 0 (by rfl) (by rfl) (by rfl) (by rfl) (by rfl) (by rfl) (by rfl)

/-- C9: for every index strictly below the entry count, resolving a program
header (resp. section header) fails with the schema-mismatch construction
error whenever the header's program-header entry-size field differs from 56
(resp. the section-header entry-size field differs from 64), because the
entry's view has length equal to the entry-size field while the schema's
total width is fixed. -/
theorem C9_entry_size_mismatch (file : List Nat) (index : Int) {hdr : StructReader}
    {psz pcnt poff ssz scnt soff : Int}
    (hh : ELFFile.header file = .ok hdr)
    (hp1 : hdr.getattrInt "program_header_size" = .ok psz)
    (hp2 : hdr.getattrInt "program_header_count" = .ok pcnt)
    (hp3 : hdr.getattrInt "program_header_offset" = .ok poff)
    (hs1 : hdr.getattrInt "section_header_size" = .ok ssz)
    (hs2 : hdr.getattrInt "section_header_count" = .ok scnt)
    (hs3 : hdr.getattrInt "section_header_offset" = .ok soff) :
    (psz ≠ 56 → index < pcnt →
      ELFFile.get_program_header file index = .error .schemaMismatch) ∧
    (ssz ≠ 64 → index < scnt →
      ELFFile.get_section_header file index = .error .schemaMismatch) := by
  constructor
  · intro hpsz hlt
    rw [ELFFile.gph_eq file index hh hp1 hp2 hp3, if_neg (by omega),
      StructReader.mk?_eq_of_nodup _ _ programHeader_nodup]
    rw [if_pos (show ((widthSum ELF64ProgramHeader.FIELD_MAPPING : Nat) : Int) ≠
      (MmapSlice.mk file (poff + index * psz) psz).size by
        rw [programHeader_widthSum]
        show ((56 : Nat) : Int) ≠ psz
        omega)]
  · intro hssz hlt
    rw [ELFFile.gsh_eq file index hh hs1 hs2 hs3, if_neg (by omega),
      StructReader.mk?_eq_of_nodup _ _ sectionHeader_nodup]
    rw [if_pos (show ((widthSum ELF64SectionHeader.FIELD_MAPPING : Nat) : Int) ≠
      (MmapSlice.mk file (soff + index * ssz) ssz).size by
        rw [sectionHeader_widthSum]
        show ((64 : Nat) : Int) ≠ ssz
        omega)]

/-- Witness for C9 on `file64`, whose entry-size fields decode to 0. -/
theorem C9_witness :
    ELFFile.get_program_header file64 0 = .error .schemaMismatch ∧
    ELFFile.get_section_header file64 0 = .error .schemaMismatch :=
  ⟨(C9_entry_size_mismatch file64 0 (by rfl) (by rfl) (by rfl) (by rfl) (by rfl) (by rfl)
      (by rfl)).1 (by decide) (by decide),
   (C9_entry_size_mismatch file64 0 (by rfl) (by rfl) (by rfl) (by rfl) (by rfl) (by rfl)
      (by rfl)).2 (by decide) (by decide)⟩

/-- C10 counterexample: in a file whose count fields decode (signed 16-bit) to
`-1`, the negative index `-1` satisfies `-1 ≥ count`, so both resolutions DO
fail with IndexOutOfRange, contrary to the claim that no negative index can. -/
theorem C10_counterexample :
    ELFFile.get_program_header fileNeg (-1) = .error .indexOutOfRange ∧
    ELFFile.get_section_header fileNeg (-1) = .error .indexOutOfRange := ⟨rfl, rfl⟩

/-- C10 as amended: a negative index fails with IndexOutOfRange only when the
signed entry count is even smaller; every negative index strictly below the
count (in particular, every negative index when the count is nonnegative)
passes the only index check — a comparison against the count from above — and
proceeds to decode the entry. -/
theorem C10_negative_index (file : List Nat) (index : Int) {hdr : StructReader}
    {psz pcnt poff ssz scnt soff : Int}
    (hh : ELFFile.header file = .ok hdr)
    (hp1 : hdr.getattrInt "program_header_size" = .ok psz)
    (hp2 : hdr.getattrInt "program_header_count" = .ok pcnt)
    (hp3 : hdr.getattrInt "program_header_offset" = .ok poff)
    (hs1 : hdr.getattrInt "section_header_size" = .ok ssz)
    (hs2 : hdr.getattrInt "section_header_count" = .ok scnt)
    (hs3 : hdr.getattrInt "section_header_offset" = .ok soff)
    (hneg : index < 0) :
    (index < pcnt → ELFFile.get_program_header file index =
        StructReader.mk? ⟨file, poff + index * psz, psz⟩ ELF64ProgramHeader.FIELD_MAPPING ∧
      ELFFile.get_program_header file index ≠ .error .indexOutOfRange) ∧
    (index < scnt → ELFFile.get_section_header file index =
        StructReader.mk? ⟨file, soff + index * ssz, ssz⟩ ELF64SectionHeader.FIELD_MAPPING ∧
      ELFFile.get_section_header file index ≠ .error .indexOutOfRange) := by
  constructor
  · intro hlt
    have h := ELFFile.gph_eq file index hh hp1 hp2 hp3
    rw [h, if_neg (by omega)]
    exact ⟨rfl, StructReader.mk?_ne_ioor _ _⟩
  · intro hlt
    have h := ELFFile.gsh_eq file index hh hs1 hs2 hs3
    rw [h, if_neg (by omega)]
    exact ⟨rfl, StructReader.mk?_ne_ioor _ _⟩

/-- Witness for C10's amended statement on `file64` (counts 1 ≥ 0) at the
negative index `-1`. -/
theorem C10_witness :
    ((-1 : Int) < 1 → ELFFile.get_program_header file64 (-1) =
        StructReader.mk? ⟨file64, 0 + (-1) * 0, 0⟩ ELF64ProgramHeader.FIELD_MAPPING ∧
      ELFFile.get_program_header file64 (-1) ≠ .error .indexOutOfRange) ∧
    ((-1 : Int) < 1 → ELFFile.get_section_header file64 (-1) =
        StructReader.mk? ⟨file64, 0 + (-1) * 0, 0⟩ ELF64SectionHeader.FIELD_MAPPING ∧
      ELFFile.get_section_header file64 (-1) ≠ .error .indexOutOfRange) :=
  C10_negative_index file64 (-1) (by rfl) (by rfl) (by rfl) (by rfl) (by rfl) (by rfl) (by rfl)
    (by decide)

/-- C5: identification validation checks, in order, magic `7F 45 4C 46`,
word-size class 2, data encoding 1, identification version 1, stopping at the
first failing check with that check's specific error; in particular a file
whose magic is wrong fails with InvalidMagic regardless of the word-size byte
(so never with UnsupportedWordSize). -/
theorem C5_validation_order (file : List Nat) {ident : StructReader}
    (hid : ELFFile.identification file = .ok ident) :
    (∀ m, ident.getattr "magic" = .ok m → m ≠ .raw elfMagic →
      mainFn file = .error .invalidMagic) ∧
    (∀ c, ident.getattr "magic" = .ok (.raw elfMagic) → ident.getattr "elf_class" = .ok c →
      c ≠ .int 2 → mainFn file = .error .unsupportedWordSize) ∧
    (∀ d, ident.getattr "magic" = .ok (.raw elfMagic) →
      ident.getattr "elf_class" = .ok (.int 2) → ident.getattr "data_encoding" = .ok d →
      d ≠ .int 1 → mainFn file = .error .unsupportedEndianness) ∧
    (∀ v, ident.getattr "magic" = .ok (.raw elfMagic) →
      ident.getattr "elf_class" = .ok (.int 2) → ident.getattr "data_encoding" = .ok (.int 1) →
      ident.getattr "header_version" = .ok v → v ≠ .int 1 →
      mainFn file = .error .unsupportedVersion) ∧
    (ident.getattr "magic" = .ok (.raw elfMagic) → ident.getattr "elf_class" = .ok (.int 2) →
      ident.getattr "data_encoding" = .ok (.int 1) →
      ident.getattr "header_version" = .ok (.int 1) → mainFn file = .ok ()) := by
  refine ⟨?_, ?_, ?_, ?_, ?_⟩
  · intro m hm hne
    simp only [mainFn, hid, exceptBind_ok, hm]
    rw [if_pos hne]
  · intro c hm hc hne
    simp only [mainFn, hid, exceptBind_ok, hm]
    rw [if_neg (fun h => h rfl)]
    simp only [hc, exceptBind_ok]
    rw [if_pos hne]
  · intro d hm hc hd hne
    simp only [mainFn, hid, exceptBind_ok, hm]
    rw [if_neg (fun h => h rfl)]
    simp only [hc, exceptBind_ok]
    rw [if_neg (fun h => h rfl)]
    simp only [hd, exceptBind_ok]
    rw [if_pos hne]
  · intro v hm hc hd hv hne
    simp only [mainFn, hid, exceptBind_ok, hm]
    rw [if_neg (fun h => h rfl)]
    simp only [hc, exceptBind_ok]
    rw [if_neg (fun h => h rfl)]
    simp only [hd, exceptBind_ok]
    rw [if_neg (fun h => h rfl)]
    simp only [hv, exceptBind_ok]
    rw [if_pos hne]
  · intro hm hc hd hv
    simp only [mainFn, hid, exceptBind_ok, hm]
    rw [if_neg (fun h => h rfl)]
    simp only [hc, exceptBind_ok]
    rw [if_neg (fun h => h rfl)]
    simp only [hd, exceptBind_ok]
    rw [if_neg (fun h => h rfl)]
    simp only [hv, exceptBind_ok]
    rw [if_neg (fun h => h rfl)]

/-- Witness for C5: a file with wrong magic AND wrong word-size byte fails
with InvalidMagic, and a file with a fully valid identification passes. -/
theorem C5_witness :
    mainFn [0, 0, 0, 0, 9] = .error .invalidMagic ∧
    mainFn [0x7F, 0x45, 0x4C, 0x46, 2, 1, 1] = .ok () :=
  ⟨(C5_validation_order [0, 0, 0, 0, 9] (by rfl)).1 (.raw [0, 0, 0, 0]) (by rfl) (by decide),
   (C5_validation_order [0x7F, 0x45, 0x4C, 0x46, 2, 1, 1] (by rfl)).2.2.2.2
     (by rfl) (by rfl) (by rfl) (by rfl)⟩

/-- C8: for every string table (as an in-bounds view) and every in-range
offset such that no zero byte occurs in the view at or after that offset,
`get(offset)` returns the text extending from the offset to the end of the
view — no terminating null is required at the boundary. -/
theorem C8_unterminated_name (t : StringTable) (offset : Int) (str : String)
    (hoff : 0 ≤ t.data.offset)
    (hbound : t.data.offset + t.data.size ≤ (t.data.mmap.length : Int))
    (h0 : 0 ≤ offset) (hlt : offset < t.data.size)
    (hz : ∀ k : Nat, k < (t.data.size - offset).toNat →
      t.data.mmap.getD ((t.data.offset + offset).toNat + k) 0 ≠ 0)
    (hdec : utf8Decode ((t.data.mmap.take (t.data.offset + t.data.size).toNat).drop
      (t.data.offset + offset).toNat) = some str) :
    t.get offset = .ok str := by
  have hf := MmapSlice.find_none t.data 0x00 offset hoff hbound h0 hlt hz
  have hs : t.data.getItemSlice (some offset) none =
      (t.data.mmap.take (t.data.offset + t.data.size).toNat).drop
        (t.data.offset + offset).toNat := by
    show pySlice t.data.mmap (t.data.offset + offset) (t.data.offset + t.data.size) = _
    exact pySlice_eq _ _ _ (by omega) (by omega) (by omega)
  simp only [StringTable.get, hf, exceptBind_ok, hs, hdec]

/-- Witness for C8: the table `[65, 66, 67]` has no zero byte after offset 1,
so `get(1)` returns `"BC"`, the text running to the end of the view. -/
theorem C8_witness : StringTable.get ⟨⟨[65, 66, 67], 0, 3⟩⟩ 1 = .ok "BC" :=
  C8_unterminated_name ⟨⟨[65, 66, 67], 0, 3⟩⟩ 1 "BC" (by decide) (by decide) (by decide)
    (by decide) (by decide) (by rfl)

theorem resolveName_inv {file : List Nat} {strtab : StringTable} {i : Int} {s : String}
    (h : resolveName file strtab i = .ok s) :
    ∃ sh noff, ELFFile.get_section_header file i = .ok sh ∧
      sh.getattrInt "name" = .ok noff ∧ strtab.get noff = .ok s := by
  unfold resolveName at h
  cases hsh : ELFFile.get_section_header file i with
  | error e => rw [hsh] at h; simp at h
  | ok sh =>
    rw [hsh] at h
    simp only [exceptBind_ok] at h
    cases hno : sh.getattrInt "name" with
    | error e => rw [hno] at h; simp at h
    | ok noff =>
      rw [hno] at h
      simp only [exceptBind_ok] at h
      exact ⟨sh, noff, rfl, hno, h⟩

theorem sectionScan_step_miss {file : List Nat} {strtab : StringTable} {want : String}
    {i : Int} {fuel : Nat} {sh : StructReader} {noff : Int} {nm : String}
    (hsh : ELFFile.get_section_header file i = .ok sh)
    (hno : sh.getattrInt "name" = .ok noff)
    (hget : strtab.get noff = .ok nm)
    (hne : nm ≠ want) :
    sectionScan file strtab want (fuel + 1) i = sectionScan file strtab want fuel (i + 1) := by
  simp only [sectionScan, hsh, exceptBind_ok, hno, hget]
  rw [if_neg hne]

theorem sectionScan_step_hit {file : List Nat} {strtab : StringTable} {want : String}
    {i : Int} {fuel : Nat} {sh : StructReader} {noff : Int}
    (hsh : ELFFile.get_section_header file i = .ok sh)
    (hno : sh.getattrInt "name" = .ok noff)
    (hget : strtab.get noff = .ok want) :
    sectionScan file strtab want (fuel + 1) i = .ok (want, sh) := by
  simp only [sectionScan, hsh, exceptBind_ok, hno, hget]
  rw [if_pos trivial]

theorem sectionScan_not_found (file : List Nat) (strtab : StringTable) (want : String) :
    ∀ (fuel : Nat) (start : Int) (f : Nat → String),
      (∀ k : Nat, k < fuel → resolveName file strtab (start + k) = .ok (f k)) →
      (∀ k : Nat, k < fuel → f k ≠ want) →
      sectionScan file strtab want fuel start = .error .sectionNotFound := by
  intro fuel
  induction fuel with
  | zero => intro start f _ _; rfl
  | succ n ih =>
    intro start f hres hne
    have h0 := hres 0 (Nat.succ_pos n)
    rw [show start + ((0 : Nat) : Int) = start by simp] at h0
    obtain ⟨sh, noff, hsh, hno, hget⟩ := resolveName_inv h0
    rw [sectionScan_step_miss hsh hno hget (hne 0 (Nat.succ_pos n))]
    apply ih (start + 1) (fun k => f (k + 1))
    · intro k hk
      have hh := hres (k + 1) (by omega)
      rw [show start + ((k + 1 : Nat) : Int) = (start + 1) + (k : Nat) by push_cast; ring] at hh
      exact hh
    · intro k hk
      exact hne (k + 1) (by omega)

theorem sectionScan_found (file : List Nat) (strtab : StringTable) (want : String) :
    ∀ (fuel : Nat) (start : Int) (f : Nat → String) (k : Nat), k < fuel →
      (∀ j : Nat, j < fuel → resolveName file strtab (start + j) = .ok (f j)) →
      f k = want → (∀ j : Nat, j < k → f j ≠ want) →
      ∃ sh noff, ELFFile.get_section_header file (start + k) = .ok sh ∧
        sh.getattrInt "name" = .ok noff ∧ strtab.get noff = .ok want ∧
        sectionScan file strtab want fuel start = .ok (want, sh) := by
  intro fuel
  induction fuel with
  | zero => intro start f k hk; exact absurd hk (by omega)
  | succ n ih =>
    intro start f k hk hres hfk hbefore
    rcases k with _ | j
    · have h0 := hres 0 (Nat.succ_pos n)
      rw [show start + ((0 : Nat) : Int) = start by simp] at h0
      rw [hfk] at h0
      obtain ⟨sh, noff, hsh, hno, hget⟩ := resolveName_inv h0
      refine ⟨sh, noff, ?_, hno, hget, sectionScan_step_hit hsh hno hget⟩
      rw [show start + ((0 : Nat) : Int) = start by simp]
      exact hsh
    · have h0 := hres 0 (Nat.succ_pos n)
      rw [show start + ((0 : Nat) : Int) = start by simp] at h0
      obtain ⟨sh0, noff0, hsh0, hno0, hget0⟩ := resolveName_inv h0
      have hne0 : f 0 ≠ want := hbefore 0 (Nat.succ_pos j)
      rw [sectionScan_step_miss hsh0 hno0 hget0 hne0]
      have hresS : ∀ i : Nat, i < n →
          resolveName file strtab ((start + 1) + i) = .ok (f (i + 1)) := by
        intro i hi
        have hh := hres (i + 1) (by omega)
        rw [show start + ((i + 1 : Nat) : Int) = (start + 1) + (i : Nat) by push_cast; ring] at hh
        exact hh
      obtain ⟨sh, noff, hsh, hno, hget, hscan⟩ := ih (start + 1) (fun i => f (i + 1)) j
        (by omega) hresS hfk (fun i hi => hbefore (i + 1) (by omega))
      refine ⟨sh, noff, ?_, hno, hget, hscan⟩
      rw [show start + ((j + 1 : Nat) : Int) = (start + 1) + (j : Nat) by push_cast; ring]
      exact hsh

/-- C3: resolving a section by name scans section-header entries in index
order from 0 to the entry count, returns the section at the first index whose
resolved name equals the requested string, and fails with SectionNotFound when
no entry's name matches; consequently, for a name that occurs in the table,
resolving by that name yields the same result as resolving by the first index
at which the name occurs. -/
theorem C3_name_scan (file : List Nat) (want : String) {hdr sth : StructReader}
    {sti soff ssz count : Int}
    (hh : ELFFile.header file = .ok hdr)
    (h1 : hdr.getattrInt "section_header_index" = .ok sti)
    (h2 : ELFFile.get_section_header file sti = .ok sth)
    (h3 : sth.getattrInt "offset" = .ok soff)
    (h4 : sth.getattrInt "size" = .ok ssz)
    (h5 : hdr.getattrInt "section_header_count" = .ok count)
    (f : Nat → String)
    (hres : ∀ k : Nat, k < count.toNat →
      resolveName file ⟨⟨file, soff, ssz⟩⟩ (k : Int) = .ok (f k)) :
    ((∀ k : Nat, k < count.toNat → f k ≠ want) →
      ELFFile.get_section file (.inr want) = .error .sectionNotFound) ∧
    (∀ k : Nat, k < count.toNat → f k = want → (∀ j : Nat, j < k → f j ≠ want) →
      ELFFile.get_section file (.inr want) = ELFFile.get_section file (.inl (k : Int))) := by
  have hres0 : ∀ k : Nat, k < count.toNat →
      resolveName file ⟨⟨file, soff, ssz⟩⟩ ((0 : Int) + (k : Nat)) = .ok (f k) := by
    intro k hk
    rw [show (0 : Int) + ((k : Nat) : Int) = ((k : Nat) : Int) by ring]
    exact hres k hk
  constructor
  · intro hnone
    have hscan := sectionScan_not_found file ⟨⟨file, soff, ssz⟩⟩ want count.toNat 0 f hres0 hnone
    simp only [ELFFile.get_section, hh, h1, h2, h3, h4, exceptBind_ok,
      ELFFile.get_section_resolve, h5, hscan, exceptBind_error]
  · intro k hk hfk hbefore
    obtain ⟨sh, noff, hsh, hno, hget, hscan⟩ :=
      sectionScan_found file ⟨⟨file, soff, ssz⟩⟩ want count.toNat 0 f k hk hres0 hfk hbefore
    have hsh' : ELFFile.get_section_header file ((k : Nat) : Int) = .ok sh := by
      rw [show ((k : Nat) : Int) = (0 : Int) + ((k : Nat) : Int) by ring]
      exact hsh
    simp only [ELFFile.get_section, hh, h1, h2, h3, h4, exceptBind_ok,
      ELFFile.get_section_resolve, h5, hscan, hsh', hno, hget, exceptPure]

set_option maxRecDepth 100000 in
/-- Witness for C3 on the synthetic image `fileC3`: `".text"` first occurs at
index 1, and resolving by name equals resolving by index 1. -/
theorem C3_witness :
    ELFFile.get_section fileC3 (.inr ".text") = ELFFile.get_section fileC3 (.inl 1) :=
  (C3_name_scan fileC3 ".text" (by rfl) (by rfl) (by rfl)
      (show _ = Except.ok (192 : Int) by rfl) (show _ = Except.ok (13 : Int) by rfl)
      (show _ = Except.ok (2 : Int) by rfl)
      (fun k => if k = 1 then ".text" else "")
      (by
        intro k hk
        have hk2 : k < 2 := hk
        rcases k with _ | _ | k
        · exact rfl
        · exact rfl
        · omega)).2
    1 (by decide) (by decide)
    (by
      intro j hj
      rcases j with _ | j
      · decide
      · omega)
